import Mathlib

/-!
Verification development for the MJPEG creator core (`mjpeg_creator.cpp`).

The embedding models byte buffers as `List Nat` (each element a byte value),
`size_t` arithmetic with explicit `% 2 ^ 64`, and the writer's mutable fields
(`first_frame`, `width`, `height`, plus the output file viewed as the list of
bytes written so far) as an explicit state record.  An execution step whose
C++ original performs an out-of-bounds `std::vector` access (undefined
behavior) is modelled as `none` / `ScanResult.oob` rather than being given an
arbitrary value.
-/

/-- Embeds `JPEGValidator::isValidJPEG`: length at least 4, SOI marker
`FF D8` at the start, EOI marker `FF D9` at the end. -/
def isValidJPEG (data : List Nat) : Bool :=
  if data.length < 4 then false
  else if data.getD 0 0 != 0xFF || data.getD 1 0 != 0xD8 then false
  else if data.getD (data.length - 2) 0 != 0xFF
      || data.getD (data.length - 1) 0 != 0xD9 then false
  else true

/-- Outcome of the SOF0 scan loop in `MJPEGWriter::validateDimensions`:
a match with decoded height and width, loop exit without a match, or an
out-of-bounds vector read (undefined behavior in the C++ source). -/
inductive ScanResult where
  | found (height width : Nat) : ScanResult
  | notFound : ScanResult
  | oob : ScanResult
  deriving DecidableEq

/-- The loop bound `jpeg_data.size() - 8` computed in `size_t`: for `n < 8`
the subtraction wraps around modulo `2 ^ 64`. -/
def scanBound (n : Nat) : Nat := (n + (2 ^ 64 - 8)) % 2 ^ 64

/-- One pass of the `for (size_t i = 0; i < jpeg_data.size() - 8; i++)` loop
of `MJPEGWriter::validateDimensions`, at position `i` with `rest` the suffix
`data.drop i` of a buffer of length `n`.  Reads follow the source's
short-circuit order: `jpeg_data[i]`, then `jpeg_data[i+1]` only when the
first byte is `0xFF`, then on a `FF C0` match the four bytes
`jpeg_data[i+5] .. jpeg_data[i+8]` (positions `3 .. 6` of `rest2`).
Any read at an index `≥ n` is undefined behavior, returned as `oob`. -/
def scanSOFAux (n : Nat) : Nat → List Nat → ScanResult
  | i, [] =>
    if scanBound n ≤ i then ScanResult.notFound else ScanResult.oob
  | i, [b] =>
    if scanBound n ≤ i then ScanResult.notFound
    else if b = 0xFF then ScanResult.oob
    else scanSOFAux n (i + 1) []
  | i, b :: b2 :: rest2 =>
    if scanBound n ≤ i then ScanResult.notFound
    else if b = 0xFF ∧ b2 = 0xC0 then
      if 6 < rest2.length then
        ScanResult.found (rest2.getD 3 0 * 256 + rest2.getD 4 0)
          (rest2.getD 5 0 * 256 + rest2.getD 6 0)
      else ScanResult.oob
    else scanSOFAux n (i + 1) (b2 :: rest2)

/-- The SOF0 marker search of `MJPEGWriter::validateDimensions` (lines 34-38):
scan from offset 0 for the first `FF C0` pair and decode the big-endian
height and width at fixed offsets `i+5 .. i+8`. -/
def extractSOF (data : List Nat) : ScanResult :=
  scanSOFAux data.length 0 data

/-- State of an `MJPEGWriter`: the three member fields plus the bytes
written to the output file so far. -/
structure MJPEGWriter where
  first_frame : Bool
  width : Nat
  height : Nat
  sink : List Nat
  deriving DecidableEq

/-- A writer as built by the `MJPEGWriter` constructor:
`first_frame(true), width(0), height(0)` and an empty output file. -/
def freshWriter : MJPEGWriter :=
  { first_frame := true, width := 0, height := 0, sink := [] }

/-- Embeds `MJPEGWriter::validateDimensions`: on a SOF0 match the first
frame records the decoded dimensions and succeeds; later frames succeed
exactly when their dimensions equal the recorded ones.  `none` models the
undefined behavior of an out-of-bounds read in the scan loop. -/
def validateDimensions (w : MJPEGWriter) (data : List Nat) :
    Option (Bool × MJPEGWriter) :=
  match extractSOF data with
  | ScanResult.oob => none
  | ScanResult.notFound => some (false, w)
  | ScanResult.found fh fw =>
    if w.first_frame then
      some (true, { w with first_frame := false, width := fw, height := fh })
    else
      some (fw == w.width && fh == w.height, w)

/-- The `std::cerr` line printed by `addFrame` when `isValidJPEG` fails. -/
def invalidMsg : String := "Invalid JPEG data detected"

/-- The `std::cerr` line printed by `addFrame` when `validateDimensions`
fails (shared by the no-marker and the mismatch case). -/
def dimMsg : String := "Frame dimensions mismatch or SOF0 marker not found"

/-- Embeds `MJPEGWriter::addFrame`: returns the `bool` result, the new
writer state, and the list of stderr lines emitted by the call. -/
def addFrame (w : MJPEGWriter) (data : List Nat) :
    Option (Bool × MJPEGWriter × List String) :=
  if isValidJPEG data = false then some (false, w, [invalidMsg])
  else
    match validateDimensions w data with
    | none => none
    | some (false, w1) => some (false, w1, [dimMsg])
    | some (true, w1) => some (true, { w1 with sink := w1.sink ++ data }, [])

/-- Embeds `MJPEGWriter::getDimensions`: the `{width, height}` pair. -/
def getDimensions (w : MJPEGWriter) : Nat × Nat := (w.width, w.height)

/-- The driver loop of `main`: offer a list of buffers to `addFrame` in
order, collecting the per-frame results; `none` if any call hits
undefined behavior. -/
def addFrames (w : MJPEGWriter) : List (List Nat) → Option (MJPEGWriter × List Bool)
  | [] => some (w, [])
  | d :: ds =>
    match addFrame w d with
    | none => none
    | some (r, w1, _) =>
      match addFrames w1 ds with
      | none => none
      | some (w2, rs) => some (w2, r :: rs)

/-- Concatenation of the buffers whose corresponding result flag is `true`. -/
def acceptedConcat : List (List Nat) → List Bool → List Nat
  | [], _ => []
  | _, [] => []
  | d :: ds, r :: rs => (if r then d else []) ++ acceptedConcat ds rs

/-! ### Concrete test frames -/

/-- A minimal well-formed frame declaring height 480, width 640: SOI, a SOF0
segment with precision 8 and big-endian dimension bytes, then EOI. -/
def f1 : List Nat :=
  [0xFF, 0xD8, 0xFF, 0xC0, 0x00, 0x11, 0x08, 0x01, 0xE0, 0x02, 0x80, 0xFF, 0xD9]

/-- Like `f1` but declaring height 240, width 320. -/
def f320 : List Nat :=
  [0xFF, 0xD8, 0xFF, 0xC0, 0x00, 0x11, 0x08, 0x00, 0xF0, 0x01, 0x40, 0xFF, 0xD9]

/-- A structurally valid buffer with no `FF C0` pair anywhere. -/
def fNoMarker : List Nat :=
  [0xFF, 0xD8, 0x00, 0x00, 0x00, 0x00, 0x00, 0x00, 0x00, 0x00, 0xFF, 0xD9]

/-- A buffer that fails `isValidJPEG` (length 1). -/
def fBad : List Nat := [0x00]

/-- The 4-byte empty-payload frame `FF D8 FF D9`. -/
def f4 : List Nat := [0xFF, 0xD8, 0xFF, 0xD9]

/-- A well-formed frame whose SOF0 payload declares height 0 and width 0. -/
def f0dims : List Nat :=
  [0xFF, 0xD8, 0xFF, 0xC0, 0x00, 0x11, 0x08, 0x00, 0x00, 0x00, 0x00, 0xFF, 0xD9]

/-- A writer that already holds reference dimensions 640 by 480. -/
def w640 : MJPEGWriter :=
  { first_frame := false, width := 640, height := 480, sink := [] }

/-! ### Helper lemmas about the scan loop -/

lemma scanBound_eq {n : Nat} (h8 : 8 ≤ n) (hn : n < 2 ^ 64) :
    scanBound n = n - 8 := by
  have hp : (8 : Nat) ≤ 2 ^ 64 := by norm_num
  unfold scanBound
  have e : n + (2 ^ 64 - 8) = (n - 8) + 2 ^ 64 := by omega
  rw [e, Nat.add_mod_right]
  exact Nat.mod_eq_of_lt (by omega)

lemma getD_drop (l : List Nat) (m k : Nat) :
    (l.drop m).getD k 0 = l.getD (m + k) 0 := by
  simp [List.getD_eq_getElem?_getD, List.getElem?_drop]

lemma getD_of_lt (l : List Nat) {j : Nat} (h : j < l.length) :
    l.getD j 0 = l[j] := by
  simp [List.getD_eq_getElem?_getD, List.getElem?_eq_getElem h]

lemma drop_cons1 (l : List Nat) {j : Nat} (h : j < l.length) :
    l.drop j = l.getD j 0 :: l.drop (j + 1) := by
  rw [List.drop_eq_getElem_cons (h := h), getD_of_lt l h]

lemma drop_cons2 (l : List Nat) {j : Nat} (h : j + 1 < l.length) :
    l.drop j = l.getD j 0 :: l.getD (j + 1) 0 :: l.drop (j + 2) := by
  rw [drop_cons1 l (by omega : j < l.length), drop_cons1 l h]

lemma scanSOFAux_stop {n i : Nat} (rest : List Nat) (h : scanBound n ≤ i) :
    scanSOFAux n i rest = ScanResult.notFound := by
  match rest with
  | [] => simp [scanSOFAux, h]
  | [b] => simp [scanSOFAux, h]
  | b :: b2 :: rest2 => simp [scanSOFAux, h]

lemma scanSOFAux_skip (data : List Nat) :
    ∀ (d j : Nat), 8 ≤ data.length → data.length < 2 ^ 64 →
      j + d ≤ data.length - 8 →
      (∀ k, j ≤ k → k < j + d →
        ¬(data.getD k 0 = 0xFF ∧ data.getD (k + 1) 0 = 0xC0)) →
      scanSOFAux data.length j (data.drop j)
        = scanSOFAux data.length (j + d) (data.drop (j + d)) := by
  intro d
  induction d with
  | zero => intro j _ _ _ _; rfl
  | succ d ih =>
    intro j h8 hlt hle hnom
    have hj : j + 1 < data.length := by omega
    have hb : ¬ scanBound data.length ≤ j := by
      rw [scanBound_eq h8 hlt]; omega
    have hstep : scanSOFAux data.length j (data.drop j)
        = scanSOFAux data.length (j + 1) (data.drop (j + 1)) := by
      have hnomj : ¬(data.getD j 0 = 0xFF ∧ data.getD (j + 1) 0 = 0xC0) :=
        hnom j (le_refl j) (by omega)
      rw [drop_cons2 data hj]
      simp only [scanSOFAux]
      rw [if_neg hb, if_neg hnomj, ← drop_cons1 data hj]
    rw [hstep]
    have e : j + 1 + d = j + (d + 1) := by omega
    rw [← e]
    exact ih (j + 1) h8 hlt (by omega) (fun k hk1 hk2 => hnom k (by omega) (by omega))

lemma extractSOF_found (data : List Nat) (i : Nat)
    (hn : data.length < 2 ^ 64) (hi : i + 8 < data.length)
    (hFF : data.getD i 0 = 0xFF) (hC0 : data.getD (i + 1) 0 = 0xC0)
    (hfirst : ∀ k, k < i → ¬(data.getD k 0 = 0xFF ∧ data.getD (k + 1) 0 = 0xC0)) :
    extractSOF data = ScanResult.found
      (data.getD (i + 5) 0 * 256 + data.getD (i + 6) 0)
      (data.getD (i + 7) 0 * 256 + data.getD (i + 8) 0) := by
  have h8 : 8 ≤ data.length := by omega
  have hskip := scanSOFAux_skip data i 0 h8 hn (by omega)
    (fun k hk0 hki => hfirst k (by omega))
  have h0 : scanSOFAux data.length 0 data
      = scanSOFAux data.length i (data.drop i) := by simpa using hskip
  have hbound : ¬ scanBound data.length ≤ i := by
    rw [scanBound_eq h8 hn]; omega
  have hlen : 6 < (data.drop (i + 2)).length := by
    rw [List.length_drop]; omega
  unfold extractSOF
  rw [h0, drop_cons2 data (by omega : i + 1 < data.length)]
  simp only [scanSOFAux]
  rw [if_neg hbound, if_pos ⟨hFF, hC0⟩, if_pos hlen,
    getD_drop, getD_drop, getD_drop, getD_drop,
    show i + 2 + 3 = i + 5 from by omega, show i + 2 + 4 = i + 6 from by omega,
    show i + 2 + 5 = i + 7 from by omega, show i + 2 + 6 = i + 8 from by omega]

lemma extractSOF_notFound (data : List Nat)
    (h8 : 8 ≤ data.length) (hn : data.length < 2 ^ 64)
    (hnom : ∀ k, k < data.length - 8 →
      ¬(data.getD k 0 = 0xFF ∧ data.getD (k + 1) 0 = 0xC0)) :
    extractSOF data = ScanResult.notFound := by
  have hskip := scanSOFAux_skip data (data.length - 8) 0 h8 hn (by omega)
    (fun k hk0 hki => hnom k (by omega))
  have h0 : scanSOFAux data.length 0 data
      = scanSOFAux data.length (data.length - 8) (data.drop (data.length - 8)) := by
    simpa using hskip
  unfold extractSOF
  rw [h0]
  exact scanSOFAux_stop _ (by rw [scanBound_eq h8 hn])

lemma validateDimensions_state {w : MJPEGWriter} {data : List Nat} {b : Bool}
    {w1 : MJPEGWriter} (h : validateDimensions w data = some (b, w1)) :
    w1.sink = w.sink ∧ (b = false → w1 = w) ∧ (w.first_frame = false → w1 = w) := by
  unfold validateDimensions at h
  cases hs : extractSOF data <;> rw [hs] at h
  case found fh fw =>
    cases hf : w.first_frame <;> rw [hf] at h <;>
      simp only [Bool.false_eq_true, Bool.true_eq_false, if_true, if_false,
        Option.some.injEq, Prod.mk.injEq, reduceIte] at h
    · obtain ⟨hb, hw⟩ := h
      subst hw
      exact ⟨rfl, fun _ => rfl, fun _ => rfl⟩
    · obtain ⟨hb, hw⟩ := h
      subst hw
      subst hb
      exact ⟨rfl, fun hc => absurd hc (by decide), fun hc => absurd hc (by decide)⟩
  case notFound =>
    simp only [Option.some.injEq, Prod.mk.injEq] at h
    obtain ⟨hb, hw⟩ := h
    subst hw
    exact ⟨rfl, fun _ => rfl, fun _ => rfl⟩
  case oob => cases h

lemma addFrame_effect {w : MJPEGWriter} {data : List Nat} {b : Bool}
    {w1 : MJPEGWriter} {msgs : List String}
    (h : addFrame w data = some (b, w1, msgs)) :
    w1.sink = w.sink ++ (if b then data else []) ∧
    (w.first_frame = false → w1.first_frame = false
      ∧ w1.width = w.width ∧ w1.height = w.height) ∧
    (b = false → w1 = w) := by
  unfold addFrame at h
  by_cases hv : isValidJPEG data = false
  · rw [if_pos hv] at h
    simp only [Option.some.injEq, Prod.mk.injEq] at h
    obtain ⟨hb, hw, hm⟩ := h
    subst hb; subst hw
    simp
  · rw [if_neg hv] at h
    cases hvd : validateDimensions w data with
    | none => rw [hvd] at h; cases h
    | some p =>
      rw [hvd] at h
      obtain ⟨bv, wv⟩ := p
      have hst := validateDimensions_state hvd
      cases bv
      · simp only [Option.some.injEq, Prod.mk.injEq] at h
        obtain ⟨hb, hw, hm⟩ := h
        subst hb; subst hw
        have hwv : wv = w := hst.2.1 rfl
        subst hwv
        simp
      · simp only [Option.some.injEq, Prod.mk.injEq] at h
        obtain ⟨hb, hw, hm⟩ := h
        subst hb; subst hw
        refine ⟨?_, ?_, ?_⟩
        · simp [hst.1]
        · intro hf
          have hwv : wv = w := hst.2.2 hf
          subst hwv
          simp [hf]
        · intro hc; cases hc

/-! ### Claim theorems -/

/-- Claim C1: the spec asserts that the Dimension Extractor's scan stops
before the last 8 bytes of every validated buffer, so no read is out of
bounds even for validated buffers of length 4 through 8.  The code violates
this: the loop bound `jpeg_data.size() - 8` is computed in `size_t`, so for
the validated 4-byte empty-payload frame it underflows to `2 ^ 64 - 4` and
the scan reads past the end of the buffer (undefined behavior). -/
theorem C1_scan_out_of_bounds :
    isValidJPEG f4 = true ∧ scanBound f4.length = 2 ^ 64 - 4 ∧
      extractSOF f4 = ScanResult.oob := by decide

/-- Claim C2: for every sequence of buffers offered to `addFrame` whose run
is free of undefined behavior, the final sink is the initial sink followed
by exactly the concatenation, in offer order, of the accepted frames'
unmodified bytes; rejected frames contribute nothing and the run
continues past them. -/
theorem C2_sink_concat (bufs : List (List Nat)) :
    ∀ (w w2 : MJPEGWriter) (rs : List Bool),
      addFrames w bufs = some (w2, rs) →
      w2.sink = w.sink ++ acceptedConcat bufs rs ∧ rs.length = bufs.length := by
  induction bufs with
  | nil =>
    intro w w2 rs h
    simp only [addFrames, Option.some.injEq, Prod.mk.injEq] at h
    obtain ⟨hw, hrs⟩ := h
    subst hw; subst hrs
    simp [acceptedConcat]
  | cons d ds ih =>
    intro w w2 rs h
    simp only [addFrames] at h
    cases ha : addFrame w d with
    | none => rw [ha] at h; cases h
    | some t =>
      rw [ha] at h
      obtain ⟨r, w1, msgs⟩ := t
      dsimp only at h
      cases hrec : addFrames w1 ds with
      | none => rw [hrec] at h; cases h
      | some q =>
        rw [hrec] at h
        obtain ⟨w3, rs1⟩ := q
        simp only [Option.some.injEq, Prod.mk.injEq] at h
        obtain ⟨hw, hrs⟩ := h
        subst hw; subst hrs
        have hsink := (addFrame_effect ha).1
        have hih := ih w1 w3 rs1 hrec
        constructor
        · rw [hih.1, hsink]
          simp [acceptedConcat, List.append_assoc]
        · simp [acceptedConcat, hih.2]

/-- Witness for C2: the run `[f1, fBad, f1]` on a fresh writer accepts the
first and third frame, rejects the invalid second one, and leaves the sink
equal to `f1 ++ f1`. -/
theorem C2_sink_concat_witness :
    ({ first_frame := false, width := 640, height := 480,
        sink := f1 ++ f1 } : MJPEGWriter).sink
        = freshWriter.sink ++ acceptedConcat [f1, fBad, f1] [true, false, true] ∧
    ([true, false, true] : List Bool).length
        = ([f1, fBad, f1] : List (List Nat)).length :=
  C2_sink_concat [f1, fBad, f1] freshWriter
    { first_frame := false, width := 640, height := 480, sink := f1 ++ f1 }
    [true, false, true] (by decide)

/-- Claim C3 fails as stated: the no-marker rejection and the
dimension-mismatch rejection are indistinguishable to the caller —
`addFrame` returns the same `false` with the same single stderr line for
both, as shown here on two concrete frames with different reject
reasons offered to the same writer. -/
theorem C3_counterexample :
    extractSOF fNoMarker = ScanResult.notFound ∧
    extractSOF f320 = ScanResult.found 240 320 ∧
    (240 ≠ w640.height ∨ 320 ≠ w640.width) ∧
    addFrame w640 fNoMarker = addFrame w640 f320 ∧
    addFrame w640 fNoMarker = some (false, w640, [dimMsg]) := by decide

/-- Claim C3 (amended): `addFrame` returns only a boolean; every rejection
is surfaced by exactly one stderr line, the structural-failure line is
emitted exactly when the Frame Validator fails, and every other rejection
carries the single shared dimensions line — so `InvalidStructure` is
distinguishable but the other two reasons are not. -/
theorem C3_reject_reporting (w : MJPEGWriter) (data : List Nat) (b : Bool)
    (w1 : MJPEGWriter) (msgs : List String)
    (h : addFrame w data = some (b, w1, msgs)) :
    (b = false ↔ msgs ≠ []) ∧
    (msgs = [invalidMsg] ↔ isValidJPEG data = false) ∧
    (b = false → msgs = [invalidMsg] ∨ msgs = [dimMsg]) := by
  unfold addFrame at h
  by_cases hv : isValidJPEG data = false
  · rw [if_pos hv] at h
    simp only [Option.some.injEq, Prod.mk.injEq] at h
    obtain ⟨hb, hw, hm⟩ := h
    subst hb; subst hm
    simp [hv]
  · rw [if_neg hv] at h
    cases hvd : validateDimensions w data with
    | none => rw [hvd] at h; cases h
    | some p =>
      rw [hvd] at h
      obtain ⟨bv, wv⟩ := p
      cases bv <;>
        simp only [Option.some.injEq, Prod.mk.injEq] at h <;>
        obtain ⟨hb, hw, hm⟩ := h <;> subst hb <;> subst hm
      · refine ⟨by simp, ?_, fun _ => Or.inr rfl⟩
        constructor
        · intro hc
          exact absurd hc (by decide)
        · intro hc
          exact absurd hc hv
      · refine ⟨by simp, ?_, fun hc => absurd hc (by decide)⟩
        constructor
        · intro hc
          exact absurd hc (by decide)
        · intro hc
          exact absurd hc hv

/-- Witness for C3 (amended): offering the invalid buffer `fBad` to a fresh
writer is rejected with the structural-failure line. -/
theorem C3_reject_reporting_witness :
    ((false = false) ↔ ([invalidMsg] : List String) ≠ []) ∧
    (([invalidMsg] : List String) = [invalidMsg] ↔ isValidJPEG fBad = false) ∧
    (false = false → ([invalidMsg] : List String) = [invalidMsg]
      ∨ ([invalidMsg] : List String) = [dimMsg]) :=
  C3_reject_reporting freshWriter fBad false freshWriter [invalidMsg] (by decide)

/-- Claim C4: `isValidJPEG` returns true exactly when the buffer has length
at least 4, starts with `FF D8`, and ends with `FF D9`; the boundary bytes
alone decide the result. -/
theorem C4_isValidJPEG_boundary (data : List Nat) :
    isValidJPEG data = true ↔
      (4 ≤ data.length ∧ data.getD 0 0 = 0xFF ∧ data.getD 1 0 = 0xD8 ∧
        data.getD (data.length - 2) 0 = 0xFF
        ∧ data.getD (data.length - 1) 0 = 0xD9) := by
  unfold isValidJPEG
  split_ifs with h1 h2 h3
  · simp only [Bool.false_eq_true, false_iff]
    intro hc
    omega
  · simp only [Bool.or_eq_true, bne_iff_ne] at h2
    simp only [Bool.false_eq_true, false_iff]
    intro hc
    rcases h2 with h | h
    · exact h hc.2.1
    · exact h hc.2.2.1
  · simp only [Bool.or_eq_true, bne_iff_ne] at h3
    simp only [Bool.false_eq_true, false_iff]
    intro hc
    rcases h3 with h | h
    · exact h hc.2.2.2.1
    · exact h hc.2.2.2.2
  · simp only [Bool.or_eq_true, bne_iff_ne, not_or, not_not] at h2 h3
    simp only [true_iff]
    exact ⟨by omega, h2.1, h2.2, h3.1, h3.2⟩

/-- Claim C5: if the first occurrence of the pair `FF C0` in the buffer is
at offset `i` inside the scan window (`i + 8` still in bounds), the
extractor returns height `buffer[i+5]*256 + buffer[i+6]` and width
`buffer[i+7]*256 + buffer[i+8]`. -/
theorem C5_first_match_dims (data : List Nat) (i : Nat)
    (hn : data.length < 2 ^ 64) (hi : i + 8 < data.length)
    (hFF : data.getD i 0 = 0xFF) (hC0 : data.getD (i + 1) 0 = 0xC0)
    (hfirst : ∀ k, k < i → ¬(data.getD k 0 = 0xFF ∧ data.getD (k + 1) 0 = 0xC0)) :
    extractSOF data = ScanResult.found
      (data.getD (i + 5) 0 * 256 + data.getD (i + 6) 0)
      (data.getD (i + 7) 0 * 256 + data.getD (i + 8) 0) :=
  extractSOF_found data i hn hi hFF hC0 hfirst

/-- Witness for C5: in `f1` the first `FF C0` pair sits at offset 2, and
extraction decodes height `1 * 256 + 0xE0 = 480` and width
`2 * 256 + 0x80 = 640` from offsets 7 to 10. -/
theorem C5_first_match_dims_witness :
    extractSOF f1 = ScanResult.found (f1.getD 7 0 * 256 + f1.getD 8 0)
      (f1.getD 9 0 * 256 + f1.getD 10 0) :=
  C5_first_match_dims f1 2 (by decide) (by decide) (by decide) (by decide)
    (by decide)

/-- Claim C6: the reference dimensions are written at most once — once
`first_frame` is cleared no later run of calls changes `getDimensions`,
a rejected call changes nothing, and the first accepted frame sets the
dimensions to exactly its extracted pair. -/
theorem C6_reference_dims_once :
    (∀ (bufs : List (List Nat)) (w w2 : MJPEGWriter) (rs : List Bool),
        addFrames w bufs = some (w2, rs) → w.first_frame = false →
          w2.first_frame = false ∧ getDimensions w2 = getDimensions w) ∧
    (∀ (w : MJPEGWriter) (data : List Nat) (b : Bool) (w1 : MJPEGWriter)
        (msgs : List String), addFrame w data = some (b, w1, msgs) →
          (b = false → w1 = w) ∧
          (w.first_frame = true → b = true →
            ∀ fh fw, extractSOF data = ScanResult.found fh fw →
              w1.first_frame = false ∧ getDimensions w1 = (fw, fh))) := by
  constructor
  · intro bufs
    induction bufs with
    | nil =>
      intro w w2 rs h hf
      simp only [addFrames, Option.some.injEq, Prod.mk.injEq] at h
      obtain ⟨hw, hrs⟩ := h
      subst hw
      exact ⟨hf, rfl⟩
    | cons d ds ih =>
      intro w w2 rs h hf
      simp only [addFrames] at h
      cases ha : addFrame w d with
      | none => rw [ha] at h; cases h
      | some t =>
        rw [ha] at h
        obtain ⟨r, w1, msgs⟩ := t
        dsimp only at h
        cases hrec : addFrames w1 ds with
        | none => rw [hrec] at h; cases h
        | some q =>
          rw [hrec] at h
          obtain ⟨w3, rs1⟩ := q
          simp only [Option.some.injEq, Prod.mk.injEq] at h
          obtain ⟨hw, hrs⟩ := h
          subst hw
          have heff := (addFrame_effect ha).2.1 hf
          have hih := ih w1 w3 rs1 hrec heff.1
          refine ⟨hih.1, ?_⟩
          rw [hih.2]
          unfold getDimensions
          rw [heff.2.1, heff.2.2]
  · intro w data b w1 msgs h
    refine ⟨(addFrame_effect h).2.2, ?_⟩
    intro hff hb fh fw hs
    unfold addFrame at h
    by_cases hv : isValidJPEG data = false
    · rw [if_pos hv] at h
      simp only [Option.some.injEq, Prod.mk.injEq] at h
      obtain ⟨hb2, hw, hm⟩ := h
      rw [← hb2] at hb
      exact absurd hb (by decide)
    · rw [if_neg hv] at h
      cases hvd : validateDimensions w data with
      | none => rw [hvd] at h; cases h
      | some p =>
        rw [hvd] at h
        obtain ⟨bv, wv⟩ := p
        cases bv
        · simp only [Option.some.injEq, Prod.mk.injEq] at h
          obtain ⟨hb2, hw, hm⟩ := h
          rw [← hb2] at hb
          exact absurd hb (by decide)
        · simp only [Option.some.injEq, Prod.mk.injEq] at h
          obtain ⟨hb2, hw, hm⟩ := h
          unfold validateDimensions at hvd
          rw [hs] at hvd
          dsimp only at hvd
          rw [hff] at hvd
          simp only [reduceIte, Option.some.injEq, Prod.mk.injEq] at hvd
          obtain ⟨hb3, hwv⟩ := hvd
          subst hwv
          subst hw
          exact ⟨rfl, rfl⟩

/-- Witness for C6: after a fresh writer accepts `f1`, `first_frame` is
cleared and the reference dimensions read `(640, 480)`. -/
theorem C6_reference_dims_once_witness :
    (⟨false, 640, 480, f1⟩ : MJPEGWriter).first_frame = false ∧
    getDimensions (⟨false, 640, 480, f1⟩ : MJPEGWriter) = (640, 480) :=
  (C6_reference_dims_once.2 freshWriter f1 true
      ⟨false, 640, 480, f1⟩ [] (by decide)).2 rfl rfl 480 640 (by decide)

/-- Claim C7: a structurally valid frame whose extracted dimensions differ
from the established reference in either field is rejected — `addFrame`
returns `false` with the dimensions diagnostic and the writer state,
including the sink and the reference dimensions, is exactly unchanged, so
no byte of the frame is ever written. -/
theorem C7_mismatch_reject (w : MJPEGWriter) (data : List Nat) (fh fw : Nat)
    (href : w.first_frame = false)
    (hvalid : isValidJPEG data = true)
    (hscan : extractSOF data = ScanResult.found fh fw)
    (hne : fw ≠ w.width ∨ fh ≠ w.height) :
    addFrame w data = some (false, w, [dimMsg]) := by
  have hbeq : (fw == w.width && fh == w.height) = false := by
    rcases hne with hx | hx <;> simp [hx]
  have hnv : ¬ isValidJPEG data = false := by rw [hvalid]; decide
  have hvd : validateDimensions w data = some (false, w) := by
    unfold validateDimensions
    rw [hscan]
    dsimp only
    rw [href]
    simp only [Bool.false_eq_true, reduceIte]
    rw [hbeq]
  unfold addFrame
  rw [if_neg hnv, hvd]

/-- Witness for C7: the writer holding (640, 480) rejects the valid
320-by-240 frame `f320` and is left unchanged. -/
theorem C7_mismatch_reject_witness :
    addFrame w640 f320 = some (false, w640, [dimMsg]) :=
  C7_mismatch_reject w640 f320 240 320 (by decide) (by decide) (by decide)
    (Or.inl (by decide))

/-- Claim C8 fails as stated: the 4-byte structurally valid frame
`FF D8 FF D9` contains no `C0` byte at all, yet instead of a clean
`DimensionsUnavailable` rejection the scan loop's underflowed bound makes
it read out of bounds — undefined behavior, modelled as `none`. -/
theorem C8_counterexample :
    isValidJPEG f4 = true ∧ f4.contains 0xC0 = false ∧
      extractSOF f4 = ScanResult.oob ∧ addFrame freshWriter f4 = none := by
  decide

/-- Claim C8 (amended): for every structurally valid buffer of length at
least 8 with no `FF C0` pair in the scan window, `addFrame` rejects the
frame with the dimensions diagnostic and leaves the writer — sink
included — unchanged; it is never accepted with substituted dimensions. -/
theorem C8_no_marker_reject (w : MJPEGWriter) (data : List Nat)
    (h8 : 8 ≤ data.length) (hn : data.length < 2 ^ 64)
    (hvalid : isValidJPEG data = true)
    (hnom : ∀ k, k < data.length - 8 →
      ¬(data.getD k 0 = 0xFF ∧ data.getD (k + 1) 0 = 0xC0)) :
    addFrame w data = some (false, w, [dimMsg]) := by
  have hs := extractSOF_notFound data h8 hn hnom
  have hnv : ¬ isValidJPEG data = false := by rw [hvalid]; decide
  have hvd : validateDimensions w data = some (false, w) := by
    unfold validateDimensions
    rw [hs]
  unfold addFrame
  rw [if_neg hnv, hvd]

/-- Witness for C8 (amended): a fresh writer rejects the marker-free valid
buffer `fNoMarker` and is left unchanged. -/
theorem C8_no_marker_reject_witness :
    addFrame freshWriter fNoMarker = some (false, freshWriter, [dimMsg]) :=
  C8_no_marker_reject freshWriter fNoMarker (by decide) (by decide)
    (by decide) (by decide)

/-- Claim C9: the dimension extraction depends only on the offered buffer:
running `validateDimensions` twice in succession on the same buffer gives
the same boolean both times, and the second call changes nothing. -/
theorem C9_extract_idempotent (w w1 w2 : MJPEGWriter) (data : List Nat)
    (b1 b2 : Bool)
    (h1 : validateDimensions w data = some (b1, w1))
    (h2 : validateDimensions w1 data = some (b2, w2)) :
    b2 = b1 ∧ w2 = w1 := by
  unfold validateDimensions at h1 h2
  cases hs : extractSOF data <;> rw [hs] at h1 h2
  case found fh fw =>
    cases hf : w.first_frame
    · rw [hf] at h1
      simp only [Bool.false_eq_true, reduceIte, Option.some.injEq,
        Prod.mk.injEq] at h1
      obtain ⟨hb1, hw1⟩ := h1
      subst hw1
      rw [hf] at h2
      simp only [Bool.false_eq_true, reduceIte, Option.some.injEq,
        Prod.mk.injEq] at h2
      obtain ⟨hb2, hw2⟩ := h2
      subst hw2
      exact ⟨by rw [← hb1, ← hb2], rfl⟩
    · rw [hf] at h1
      simp only [reduceIte, Option.some.injEq, Prod.mk.injEq] at h1
      obtain ⟨hb1, hw1⟩ := h1
      subst hw1
      simp only [Bool.false_eq_true, reduceIte, beq_self_eq_true,
        Bool.and_self, Option.some.injEq, Prod.mk.injEq] at h2
      obtain ⟨hb2, hw2⟩ := h2
      subst hw2
      subst hb1
      exact ⟨hb2.symm, rfl⟩
  case notFound =>
    simp only [Option.some.injEq, Prod.mk.injEq] at h1 h2
    obtain ⟨hb1, hw1⟩ := h1
    subst hw1
    obtain ⟨hb2, hw2⟩ := h2
    subst hw2
    exact ⟨by rw [← hb1, ← hb2], rfl⟩
  case oob => cases h1

/-- Witness for C9: the fresh writer's first call on `f1` succeeds and
records (640, 480); an immediate second call on the same buffer returns
the same result and does not change the state again. -/
theorem C9_extract_idempotent_witness :
    true = true ∧ w640 = w640 :=
  C9_extract_idempotent freshWriter w640 w640 f1 true true (by decide)
    (by decide)

/-- Claim C10: the frame `f0dims`, whose SOF0 payload declares height 0 and
width 0, is accepted as a fresh writer's first frame; afterwards
`getDimensions` returns `(0, 0)` — exactly what a fresh writer that never
accepted a frame reports, so a `(0, 0)` report does not imply that zero
frames were accepted. -/
theorem C10_zero_dims_frame :
    extractSOF f0dims = ScanResult.found 0 0 ∧
    addFrame freshWriter f0dims
      = some (true, ⟨false, 0, 0, f0dims⟩, []) ∧
    getDimensions (⟨false, 0, 0, f0dims⟩ : MJPEGWriter)
      = getDimensions freshWriter ∧
    getDimensions freshWriter = (0, 0) := by decide
